import Mathlib

/-!
Verification development for the caption/transcript normalization and
multi-method fallback pipeline of a YouTube audio/caption extraction
service (`src/server.js`).

JavaScript numbers that can be NaN are modelled as `Option ℚ` (`none` = NaN);
all numeric inputs reaching the parsers are finite decimals, so rationals are
exact.  JS builtins (`parseFloat`, `parseInt`, `trim`, `split`, `replace`,
`includes`) are modelled directly below; `parseFloat`/`parseInt` are modelled
on finite decimal notation (no exponent / hex / Infinity forms, which no
input in this development exercises).  External collaborators (network
fetches, the xml2js library, the yt-dlp process, the filesystem) are
modelled as adversarially chosen inputs to the embedded functions.
-/

namespace YtAudio

/-- JS number that may be NaN: `none` models NaN, `some q` a finite value. -/
abbrev JSNum := Option ℚ

/-- Rational addition, computed through `mkRat` so that the kernel can
evaluate it (the library's `Rat.add` is irreducible).  `qAdd_eq` below shows
it agrees with `+`. -/
def qAdd (x y : ℚ) : ℚ := mkRat (x.num * y.den + y.num * x.den) (x.den * y.den)

/-- Rational multiplication through `mkRat`; agrees with `*` (`qMul_eq`). -/
def qMul (x y : ℚ) : ℚ := mkRat (x.num * y.num) (x.den * y.den)

/-- Rational negation through `mkRat`; agrees with `Neg.neg` (`qNeg_eq`). -/
def qNeg (x : ℚ) : ℚ := mkRat (-x.num) x.den

/-- Division of a rational by a natural number, through `mkRat`; agrees
with `/` for a non-zero divisor (`qDivNat_eq`). -/
def qDivNat (x : ℚ) (n : Nat) : ℚ := mkRat x.num (x.den * n)

/-- Embedding of naturals into ℚ through `mkRat`; agrees with the cast
(`natQ_eq`). -/
def natQ (n : Nat) : ℚ := mkRat (Int.ofNat n) 1

/-- Addition on JS numbers: NaN propagates. -/
def jsAdd (a b : JSNum) : JSNum :=
  match a, b with
  | some x, some y => some (qAdd x y)
  | _, _ => none

/-- Multiplication by a constant on JS numbers: NaN propagates. -/
def jsMul (a : JSNum) (k : ℚ) : JSNum :=
  match a with
  | some x => some (qMul x k)
  | none => none

/-- JS `>=` comparison: any comparison involving NaN is false. -/
def jsGe (a b : JSNum) : Bool :=
  match a, b with
  | some x, some y => decide (y ≤ x)
  | _, _ => false

/-- Characters treated as whitespace by JS (`\s`, `trim`): ASCII whitespace
plus the common Unicode space characters. -/
def jsWsChars : List Char :=
  [' ', '\t', '\n', '\r', Char.ofNat 11, Char.ofNat 12,
   Char.ofNat 0xA0, Char.ofNat 0x1680, Char.ofNat 0x2028, Char.ofNat 0x2029,
   Char.ofNat 0x202F, Char.ofNat 0x205F, Char.ofNat 0x3000, Char.ofNat 0xFEFF]

/-- Whitespace test for the JS model. -/
def jsWs (c : Char) : Bool := c ∈ jsWsChars

/-- Value of a list of decimal digit characters. -/
def digitsToNat (l : List Char) : Nat :=
  l.foldl (fun n c => n * 10 + (c.toNat - '0'.toNat)) 0

/-- Parse an unsigned decimal number (`digits`, `digits.digits`, `.digits`,
`digits.`) from the front of a character list; `none` when no digits are
present (JS NaN). -/
def parseUnsigned (l : List Char) : Option ℚ :=
  let ds := l.takeWhile Char.isDigit
  let r := l.drop ds.length
  match r with
  | '.' :: t =>
    let fs := t.takeWhile Char.isDigit
    if ds.isEmpty && fs.isEmpty then none
    else some (qAdd (natQ (digitsToNat ds)) (qDivNat (natQ (digitsToNat fs)) (10 ^ fs.length)))
  | _ => if ds.isEmpty then none else some (natQ (digitsToNat ds))

/-- Model of JS `parseFloat` on finite decimal notation: skip leading
whitespace, optional sign, then the longest decimal prefix; NaN (`none`)
when no digits are found. -/
def parseFloatL (l : List Char) : JSNum :=
  let l1 := l.dropWhile jsWs
  match l1 with
  | '-' :: t => (parseUnsigned t).map qNeg
  | '+' :: t => parseUnsigned t
  | _ => parseUnsigned l1

/-- Model of JS `parseFloat` on strings. -/
def parseFloat (s : String) : JSNum := parseFloatL s.data

/-- Model of JS `parseInt` (radix 10 forms): skip leading whitespace,
optional sign, longest run of digits; NaN (`none`) when there is none. -/
def parseIntL (l : List Char) : JSNum :=
  let l1 := l.dropWhile jsWs
  match l1 with
  | '-' :: t =>
    let ds := t.takeWhile Char.isDigit
    if ds.isEmpty then none else some (qNeg (natQ (digitsToNat ds)))
  | '+' :: t =>
    let ds := t.takeWhile Char.isDigit
    if ds.isEmpty then none else some (natQ (digitsToNat ds))
  | _ =>
    let ds := l1.takeWhile Char.isDigit
    if ds.isEmpty then none else some (natQ (digitsToNat ds))

/-- JS `String.prototype.trim` on character lists. -/
def jsTrimL (l : List Char) : List Char :=
  ((l.dropWhile jsWs).reverse.dropWhile jsWs).reverse

/-- JS `String.prototype.trim`. -/
def jsTrim (s : String) : String := String.mk (jsTrimL s.data)

/-- Strip a literal from the front of a list: `some` remainder iff the
literal is a prefix. -/
def chopLit : List Char → List Char → Option (List Char)
  | [], l => some l
  | _ :: _, [] => none
  | c :: p, x :: l => if x = c then chopLit p l else none

/-- JS `String.prototype.includes` on character lists. -/
def containsSub (pat : List Char) : List Char → Bool
  | [] => pat.isEmpty
  | c :: t => (chopLit pat (c :: t)).isSome || containsSub pat t

/-- JS `String.prototype.replace` with a global literal pattern:
leftmost, non-overlapping replacement.  Fuelled by the input length
(every step strictly shortens the input, so `length + 1` fuel suffices;
the pattern is required non-empty by the match). -/
def repAllF (pat rep : List Char) : Nat → List Char → List Char
  | 0, l => l
  | _, [] => []
  | fuel + 1, c :: t =>
    match pat, chopLit pat (c :: t) with
    | _ :: _, some r => rep ++ repAllF pat rep fuel r
    | _, _ => c :: repAllF pat rep fuel t

/-- JS global literal replacement. -/
def repAll (pat rep l : List Char) : List Char := repAllF pat rep (l.length + 1) l

/-- JS `String.prototype.split` with a non-empty literal separator:
split at leftmost, non-overlapping occurrences, keeping empty parts.
Fuelled like `repAllF`. -/
def splitOnSubF (sep : List Char) : Nat → List Char → List (List Char)
  | 0, _ => [[]]
  | _, [] => [[]]
  | fuel + 1, c :: t =>
    match sep, chopLit sep (c :: t) with
    | _ :: _, some r => [] :: splitOnSubF sep fuel r
    | _, _ =>
      match splitOnSubF sep fuel t with
      | [] => [[c]]
      | p :: ps => (c :: p) :: ps

/-- JS split on a literal separator. -/
def splitOnSub (sep l : List Char) : List (List Char) := splitOnSubF sep (l.length + 1) l

/-- The word-splitting delimiter class used throughout `server.js`:
`/[\s、。！？]/`. -/
def wordDelim (c : Char) : Bool := jsWs c || c = '、' || c = '。' || c = '！' || c = '？'

/-- Split a list at every delimiter character, keeping empty runs
(JS `split` with a character-class regex). -/
def splitRuns (p : Char → Bool) : List Char → List (List Char)
  | [] => [[]]
  | c :: t =>
    if p c then [] :: splitRuns p t
    else
      match splitRuns p t with
      | [] => [[c]]
      | w :: ws => (c :: w) :: ws

/-- The `words` computation shared by all parsers:
`text.split(/[\s、。！？]/g).filter(w => w.length > 0)`. -/
def jsWordsL (l : List Char) : List String :=
  ((splitRuns wordDelim l).filter (fun w => !w.isEmpty)).map String.mk

/-- `words` on strings. -/
def jsWords (s : String) : List String := jsWordsL s.data

/-- JS `x || d` for an optional string against a truthy default:
`undefined` and `""` both fall back to the default. -/
def jsOrStr (x : Option String) (d : String) : String :=
  match x with
  | some s => if s = "" then d else s
  | none => d

/-- JS `x || d` for an optional number default: `undefined` and `0`
both fall back to the default. -/
def jsOrQ (x : Option ℚ) (d : ℚ) : ℚ :=
  match x with
  | some v => if v = 0 then d else v
  | none => d

/-- TranscriptSegment, the normalized transcript unit produced by every
parser in `server.js`. -/
structure TranscriptSegment where
  id : String
  text : String
  startTime : JSNum
  endTime : JSNum
  words : List String
deriving DecidableEq, Repr

/-- The `id` fields of a transcript are the decimal numerals counting
contiguously from `n`. -/
def contiguousFrom (n : Nat) (t : List TranscriptSegment) : Prop :=
  t.map (fun seg => seg.id) = (List.range' n t.length).map (fun k => toString k)

/-! ### Timed-text regex parser (`parseCaptionData`, format `timedtext`,
`server.js` lines 928–955).

The source matches `/<text\s+start="([\d.]+)"\s+dur="([\d.]+)"[^>]*>([^<]+)<\/text>/g`
in a `while (exec)` loop.  Every bounded repetition below is followed by a
character excluded from its class, so greedy matching without backtracking
is exact. -/

/-- `[\d.]` character class. -/
def digitDot (c : Char) : Bool := c.isDigit || c = '.'

/-- Consume `\s+`: at least one whitespace character, maximal run. -/
def ws1 : List Char → Option (List Char)
  | [] => none
  | c :: t => if jsWs c then some (t.dropWhile jsWs) else none

/-- Consume one-or-more characters of a class, returning the capture and
the remainder. -/
def cls1 (p : Char → Bool) (l : List Char) : Option (List Char × List Char) :=
  let cap := l.takeWhile p
  if cap.isEmpty then none else some (cap, l.dropWhile p)

/-- Attempt the timed-text `<text ...>...</text>` pattern at the head of the
input, returning `(start, dur, text, remainder)` captures. -/
def matchTTAt (l : List Char) : Option (List Char × List Char × List Char × List Char) :=
  (chopLit "<text".data l).bind fun r1 =>
  (ws1 r1).bind fun r2 =>
  (chopLit "start=\"".data r2).bind fun r3 =>
  (cls1 digitDot r3).bind fun sr =>
  (chopLit "\"".data sr.2).bind fun r5 =>
  (ws1 r5).bind fun r6 =>
  (chopLit "dur=\"".data r6).bind fun r7 =>
  (cls1 digitDot r7).bind fun dr =>
  (chopLit "\"".data dr.2).bind fun r9 =>
  (chopLit ">".data (r9.dropWhile (fun c => c != '>'))).bind fun r10 =>
  (cls1 (fun c => c != '<') r10).bind fun tr =>
  (chopLit "</text>".data tr.2).map fun rest => (sr.1, dr.1, tr.1, rest)

/-- The `while ((match = textRegex.exec(...)) !== null)` loop: successive
non-overlapping matches, scanning forward on failure.  Fuelled by the input
length (every step strictly shortens the unscanned input, so
`length + 1` fuel always suffices). -/
def scanTT : Nat → List Char → List (List Char × List Char × List Char)
  | 0, _ => []
  | _, [] => []
  | fuel + 1, c :: t =>
    match matchTTAt (c :: t) with
    | some (s, d, txt, rest) => (s, d, txt) :: scanTT fuel rest
    | none => scanTT fuel t

/-- Decode the five HTML entities, in source order
(`&amp;`, `&lt;`, `&gt;`, `&quot;`, `&#39;`). -/
def decodeEntities (l : List Char) : List Char :=
  repAll "&#39;".data "'".data
    (repAll "&quot;".data "\"".data
      (repAll "&gt;".data ">".data
        (repAll "&lt;".data "<".data
          (repAll "&amp;".data "&".data l))))

/-- Build segments from the regex captures: decode entities, trim, skip
empty text, assign `id` from the running 1-based counter. -/
def buildTT : Nat → List (List Char × List Char × List Char) → List TranscriptSegment
  | _, [] => []
  | idx, (s, d, raw) :: rest =>
    let text := jsTrimL (decodeEntities raw)
    if text.isEmpty then buildTT idx rest
    else
      { id := toString idx, text := String.mk text,
        startTime := parseFloatL s,
        endTime := jsAdd (parseFloatL s) (parseFloatL d),
        words := jsWordsL text } :: buildTT (idx + 1) rest

/-- The timed-text branch of `parseCaptionData` on character lists. -/
def parseTimedTextL (l : List Char) : List TranscriptSegment :=
  buildTT 1 (scanTT (l.length + 1) l)

/-- The timed-text branch of `parseCaptionData` (`server.js` 928–955). -/
def parseTimedText (s : String) : List TranscriptSegment :=
  parseTimedTextL s.data

/-! ### WebVTT parser (`parseVTTToTranscript`, `parseVTTTimestamp`,
`server.js` lines 988–1023). -/

/-- `parseVTTTimestamp` (`server.js` 1013–1023): split on `:`;
`HH:MM:SS.mmm` and `MM:SS.mmm` forms; anything else is 0. -/
def parseVTTTimestamp (ts : String) : JSNum :=
  match splitOnSub [':'] ts.data with
  | [h, m, s] =>
    jsAdd (jsAdd (jsMul (parseIntL h) 3600) (jsMul (parseIntL m) 60)) (parseFloatL s)
  | [m, s] => jsAdd (jsMul (parseIntL m) 60) (parseFloatL s)
  | _ => some 0

/-- One step of the VTT line loop (`server.js` 994–1008).  State is the
pending `(startTime, endTime)` of `currentEntry` (set by a `-->` line) and
the running 1-based id counter. -/
def vttLoop : Option (JSNum × JSNum) → Nat → List (List Char) → List TranscriptSegment
  | _, _, [] => []
  | cur, idx, ln :: rest =>
    let line := jsTrimL ln
    if containsSub "-->".data line then
      let parts := (splitOnSub "-->".data line).map jsTrimL
      vttLoop (some (parseVTTTimestamp (String.mk (parts.headD [])),
                     parseVTTTimestamp (String.mk (parts.getD 1 [])))) idx rest
    else
      match cur with
      | some st =>
        if !line.isEmpty && !("WEBVTT".data.isPrefixOf line) then
          { id := toString idx, text := String.mk line, startTime := st.1,
            endTime := st.2, words := jsWordsL line } :: vttLoop none (idx + 1) rest
        else vttLoop (some st) idx rest
      | none => vttLoop none idx rest

/-- `parseVTTToTranscript` (`server.js` 988–1011). -/
def parseVTTToTranscript (vttContent : String) : List TranscriptSegment :=
  vttLoop none 1 (splitOnSub ['\n'] vttContent.data)

/-! ### JSON event-stream (json3) parser
(`server.js` lines 687–712, the `/extract-youtube-subtitles` json3 block).
The input is the structure produced by `JSON.parse` on the subtitle file:
a list of events, each with optional `segs`, `tStartMs`, `dDurationMs`. -/

/-- One `segs` entry of a json3 event. -/
structure Json3Seg where
  utf8 : Option String
deriving DecidableEq, Repr

/-- One json3 event. -/
structure Json3Event where
  segs : Option (List Json3Seg)
  tStartMs : Option ℚ
  dDurationMs : Option ℚ
deriving DecidableEq, Repr

/-- `event.segs.map(seg => seg.utf8 || '').join('')`. -/
def eventJoined (e : Json3Event) : String :=
  match e.segs with
  | some segs => (segs.map (fun s => s.utf8.getD "")).foldl (· ++ ·) ""
  | none => ""

/-- The json3 `events.forEach` loop (`server.js` 695–711): skip events
without `segs` and events whose joined, trimmed text is empty or equals a
bare newline; otherwise push a segment with `start = tStartMs/1000`,
`end = start + (dDurationMs || 5000)/1000`. -/
def json3Loop : Nat → List Json3Event → List TranscriptSegment
  | _, [] => []
  | idx, e :: rest =>
    match e.segs with
    | none => json3Loop idx rest
    | some _ =>
      let text := jsTrim (eventJoined e)
      if text ≠ "" ∧ text ≠ "\n" then
        let start := qDivNat (jsOrQ e.tStartMs 0) 1000
        let dur := qDivNat (jsOrQ e.dDurationMs 5000) 1000
        { id := toString idx, text := text, startTime := some start,
          endTime := some (qAdd start dur), words := jsWords text } :: json3Loop (idx + 1) rest
      else json3Loop idx rest

/-- The json3 parsing block as a function of the parsed events list. -/
def parseJson3Events (events : List Json3Event) : List TranscriptSegment :=
  json3Loop 1 events

/-! ### Caption-track XML (srv3) branch of `parseCaptionData`
(`server.js` lines 957–977).

The branch hands the caption string to the external `xml2js` library and
walks `result.transcript.text` inside the callback.  `xml2js` is an
external collaborator, so its outcome is modelled as an adversarially
chosen value of `Xml2jsOutcome`; the walk itself is embedded exactly,
including the `TypeError`s JS raises when an item has no attribute object
(`item.$` is `undefined`) or no text content (`(item._ || item).split` on
a non-string), which abort the `forEach` and are caught by the enclosing
`try`, keeping the segments pushed so far. -/

/-- Attribute object (`item.$`) of a parsed `text` element. -/
structure XmlAttrs where
  start : Option String
  dur : Option String
deriving DecidableEq, Repr

/-- One item of `result.transcript.text` under `explicitArray: false`:
either a bare string or an element with optional attributes (`$`) and
optional text content (`_`). -/
inductive XmlItem where
  | str (s : String)
  | elt (attrs : Option XmlAttrs) (content : Option String)
deriving DecidableEq, Repr

/-- Outcome of the `xml2js` callback: a parse error, a tree without
`transcript.text` (or falsy `result`/`text`), a single text element, or an
array of them. -/
inductive Xml2jsOutcome where
  | errRes (msg : String)
  | noText
  | single (item : XmlItem)
  | many (items : List XmlItem)
deriving DecidableEq, Repr

/-- Evaluate one `texts.forEach` body (`server.js` 964–975) at 0-based
index `idx`: a segment, or the message of the `TypeError` the JS raises. -/
def evalSrv3Item (idx : Nat) (item : XmlItem) : Except String TranscriptSegment :=
  match item with
  | .str _ => .error "Cannot read properties of undefined (reading 'start')"
  | .elt none _ => .error "Cannot read properties of undefined (reading 'start')"
  | .elt (some a) content =>
    let start := parseFloat (jsOrStr a.start "0")
    let dur := parseFloat (jsOrStr a.dur "5")
    match content with
    | some t =>
      if t ≠ "" then
        .ok { id := toString (idx + 1), text := t, startTime := start,
              endTime := jsAdd start dur, words := jsWords t }
      else .error "(item._ || item).split is not a function"
    | none => .error "(item._ || item).split is not a function"

/-- The `texts.forEach` loop: pushes segments until an item raises, in
which case the segments pushed so far are kept and the error recorded. -/
def srv3Run (idx : Nat) : List XmlItem → List TranscriptSegment × Option String
  | [] => ([], none)
  | item :: rest =>
    match evalSrv3Item idx item with
    | .ok seg =>
      let r := srv3Run (idx + 1) rest
      (seg :: r.1, r.2)
    | .error msg => ([], some msg)

/-- The srv3 branch body: nothing is pushed on a parse error or a tree
without text items; `explicitArray: false` wraps a single item in a
one-element array. -/
def srv3Body (o : Xml2jsOutcome) : List TranscriptSegment × Option String :=
  match o with
  | .errRes _ => ([], none)
  | .noText => ([], none)
  | .single item => srv3Run 0 [item]
  | .many items => srv3Run 0 items

/-! ### `parseCaptionData` (`server.js` lines 923–985). -/

/-- The `try` body of `parseCaptionData`: `timedtext` uses the regex
parser (which cannot throw); any other format goes through `xml2js`,
modelled by the oracle `xp`.  An `.error` value carries the partially
built transcript together with the thrown message. -/
def parseCaptionDataTry (xp : String → Xml2jsOutcome) (captionData format : String) :
    Except (List TranscriptSegment × String) (List TranscriptSegment) :=
  if format = "timedtext" then .ok (parseTimedText captionData)
  else
    match srv3Body (xp captionData) with
    | (t, none) => .ok t
    | (t, some msg) => .error (t, msg)

/-- `parseCaptionData`: the `catch` logs the error and the function
returns whatever was pushed into `transcript` before the throw, so it
never raises. -/
def parseCaptionData (xp : String → Xml2jsOutcome) (captionData format : String) :
    List TranscriptSegment :=
  match parseCaptionDataTry xp captionData format with
  | .ok t => t
  | .error (t, _) => t

/-- Stand-in `xml2js` oracle used to instantiate universally quantified
theorems at concrete inputs (the real library is external to the repo). -/
def xmlParseStub : String → Xml2jsOutcome := fun _ => .errRes "not modelled"

/-! ### `extractVideoId` (`server.js` lines 395–406).

Pattern 1 is `/(?:youtube\.com\/watch\?v=|youtu\.be\/|youtube\.com\/embed\/)([^&\s]+)/`,
pattern 2 is `/youtube\.com\/v\/([^&\s]+)/`.  The capture class `[^&\s]+`
excludes the character that ends it, so greedy matching is exact; the three
literal alternatives are pairwise non-overlapping, and JS tries them in
order at each position, scanning positions left to right. -/

/-- `[^&\s]` complement class: characters ending a video-id capture. -/
def vidStop (c : Char) : Bool := c = '&' || jsWs c

/-- Capture `([^&\s]+)` at the head of the input. -/
def vidCapAt (l : List Char) : Option (List Char) :=
  let cap := l.takeWhile (fun c => !vidStop c)
  if cap.isEmpty then none else some cap

/-- Try the three alternatives of pattern 1 at one position. -/
def tryVid1At (l : List Char) : Option (List Char) :=
  ((chopLit "youtube.com/watch?v=".data l).bind vidCapAt) <|>
  ((chopLit "youtu.be/".data l).bind vidCapAt) <|>
  ((chopLit "youtube.com/embed/".data l).bind vidCapAt)

/-- Scan pattern 1 across all positions (leftmost match). -/
def scanVid1 : List Char → Option (List Char)
  | [] => none
  | c :: t => tryVid1At (c :: t) <|> scanVid1 t

/-- Try pattern 2 at one position. -/
def tryVid2At (l : List Char) : Option (List Char) :=
  (chopLit "youtube.com/v/".data l).bind vidCapAt

/-- Scan pattern 2 across all positions. -/
def scanVid2 : List Char → Option (List Char)
  | [] => none
  | c :: t => tryVid2At (c :: t) <|> scanVid2 t

/-- `extractVideoId`: first pattern that matches wins; `none` models the
source's `null`. -/
def extractVideoId (url : String) : Option String :=
  match scanVid1 url.data with
  | some cap => some (String.mk cap)
  | none => (scanVid2 url.data).map String.mk

/-! ### `isValidYouTubeUrl` (`server.js` lines 917–920).

`/^(https?:\/\/)?(www\.)?(youtube\.com\/(watch\?v=|embed\/|v\/)|youtu\.be\/)[\w-]+/`
tested with `.test(url)`: existence of a match anchored at the start. -/

/-- JS `[\w-]`: ASCII alphanumerics, underscore, hyphen. -/
def isWordChar (c : Char) : Bool := c.isAlphanum || c = '_' || c = '-'

/-- Remainders after the optional scheme group `(https?:\/\/)?`. -/
def schemeCands (l : List Char) : List (List Char) :=
  (match chopLit "https://".data l with | some r => [r] | none => []) ++
  (match chopLit "http://".data l with | some r => [r] | none => []) ++ [l]

/-- Remainders after the optional `(www\.)?` group. -/
def wwwCands (l : List Char) : List (List Char) :=
  (match chopLit "www.".data l with | some r => [r] | none => []) ++ [l]

/-- Remainders after the host/path alternation. -/
def hostCands (l : List Char) : List (List Char) :=
  [chopLit "youtube.com/watch?v=".data l, chopLit "youtube.com/embed/".data l,
   chopLit "youtube.com/v/".data l, chopLit "youtu.be/".data l].filterMap id

/-- The final `[\w-]+` requirement: at least one word character follows. -/
def tailOk : List Char → Bool
  | c :: _ => isWordChar c
  | [] => false

/-- `isValidYouTubeUrl`: the anchored regex test. -/
def isValidYouTubeUrl (url : String) : Bool :=
  (schemeCands url.data).any fun r1 =>
    (wwwCands r1).any fun r2 => (hostCands r2).any tailOk

/-! ### Caption source adapters (`tryTimedText` 409–463, `tryYouTubeAPI`
466–550, `extractSubtitlesWithYtDlp` 243–302).

Network fetches, process invocations and the filesystem are external; each
adapter is embedded as a function of the outcomes of its external calls
(`Except String α` models a promise that either resolves or rejects). -/

/-- Result object returned by `tryTimedText`/`tryYouTubeAPI` on success. -/
structure CaptionFetchResult where
  success : Bool
  captions : String
  format : String
  language : String
  isAutoGenerated : Bool
deriving DecidableEq, Repr

/-- `tryTimedText` as a function of the two timed-text fetches (manual,
then `kind=asr`): any rejection is caught and yields `null` (`none`), and a
body without `<text` also yields `null` — the same signal. -/
def tryTimedText (r1 r2 : Except String String) : Option CaptionFetchResult :=
  match r1 with
  | .error _ => none
  | .ok data =>
    if data ≠ "" ∧ containsSub "<text".data data.data then
      some ⟨true, data, "timedtext", "ja", false⟩
    else
      match r2 with
      | .error _ => none
      | .ok d2 =>
        if d2 ≠ "" ∧ containsSub "<text".data d2.data then
          some ⟨true, d2, "timedtext", "ja", true⟩
        else none

/-- One caption track of the page-metadata payload. -/
structure CaptionTrack where
  languageCode : String
  vssId : Option String
  kind : Option String
  fetch : Except String String
deriving Repr

/-- The parsed `player_response` payload. -/
structure PlayerResponse where
  captionTracks : Option (List CaptionTrack)
deriving Repr

/-- Outcome of one metadata-endpoint variant inside `tryYouTubeAPI`:
the fetch rejected, the form data had no `player_response`, `JSON.parse`
threw, or a parsed payload. -/
inductive MethodOutcome where
  | fetchErr (msg : String)
  | noPlayerResponse
  | badJson (msg : String)
  | parsed (pr : PlayerResponse)
deriving Repr

/-- The Japanese-track selector (`server.js` 508–512). -/
def isJaTrack (t : CaptionTrack) : Bool :=
  t.languageCode = "ja" || t.languageCode = "ja-JP" ||
  (match t.vssId with | some v => containsSub ".ja".data v.data | none => false)

/-- Process one metadata-endpoint variant (`server.js` 480–544): every
failure mode — rejection, missing payload, bad JSON, no tracks, no
Japanese track, caption fetch error — falls through to the next variant
with no distinguishing outcome. -/
def tryApiMethod (m : MethodOutcome) : Option CaptionFetchResult :=
  match m with
  | .fetchErr _ => none
  | .noPlayerResponse => none
  | .badJson _ => none
  | .parsed pr =>
    match pr.captionTracks with
    | some tracks =>
      if tracks.length > 0 then
        match tracks.find? isJaTrack with
        | some t =>
          match t.fetch with
          | .ok captions =>
            some ⟨true, captions, "srv3", t.languageCode,
              ((t.kind = some "asr") ||
               (match t.vssId with | some v => containsSub ".a.".data v.data | none => false))⟩
          | .error _ => none
        | none => none
      else none
    | none => none

/-- `tryYouTubeAPI` as a function of its two endpoint variants: the first
variant that produces a fetched Japanese track wins; otherwise `null`. -/
def tryYouTubeAPI (m1 m2 : MethodOutcome) : Option CaptionFetchResult :=
  (tryApiMethod m1) <|> (tryApiMethod m2)

/-- Subtitle-availability part of the `yt-dlp --dump-json` output. -/
structure VideoInfo where
  subJa : Bool
  subJaJP : Bool
  autoJa : Bool
  autoJaJP : Bool
deriving DecidableEq, Repr

/-- Return shape of `extractSubtitlesWithYtDlp`: `{success: true,
transcript, language, isAutoGenerated}` or `{success: false, error}`. -/
inductive YtDlpResult where
  | good (transcript : List TranscriptSegment) (language : String) (isAutoGenerated : Bool)
  | fail (error : String)
deriving DecidableEq, Repr

/-- The download half of `extractSubtitlesWithYtDlp` (`server.js`
280–298): run the subtitle command, then read and parse the `.vtt` file if
it exists. -/
def extractSubtitlesDownload (lang : String) (auto : Bool)
    (dl : Except String Unit) (vtt : Option String) : YtDlpResult :=
  match dl with
  | .error m => .fail m
  | .ok _ =>
    match vtt with
    | some content => .good (parseVTTToTranscript content) lang auto
    | none => .fail "Failed to download subtitles"

/-- `extractSubtitlesWithYtDlp` (`server.js` 243–302) as a function of the
info command, the subtitle download command, and the content of the
expected `.vtt` file (`none` when the file does not exist).  Unlike the
other two adapters it reports each failure cause with its own message. -/
def extractSubtitlesWithYtDlp (info : Except String VideoInfo)
    (dl : Except String Unit) (vtt : Option String) : YtDlpResult :=
  match info with
  | .error m => .fail m
  | .ok vi =>
    if vi.subJa || vi.subJaJP then
      extractSubtitlesDownload (if vi.subJa then "ja" else "ja-JP") false dl vtt
    else if vi.autoJa || vi.autoJaJP then
      extractSubtitlesDownload (if vi.autoJa then "ja" else "ja-JP") true dl vtt
    else .fail "No Japanese subtitles available"

/-! ### Fallback orchestrator (`POST /extract-youtube-content`,
`server.js` lines 138–240). -/

/-- Per-method diagnostic entry (`response.methods.*`). -/
structure Diag where
  success : Bool
  transcriptCount : Option Nat
  error : Option String
deriving DecidableEq, Repr

/-- The `response.methods` map. -/
structure MethodsMap where
  timedtext : Option Diag := none
  youtubeApi : Option Diag := none
  ytDlpSubtitles : Option Diag := none
deriving DecidableEq, Repr

/-- The assembled orchestrator response (fields absent on a path are
`none`). -/
structure OrchResponse where
  success : Bool
  transcript : Option (List TranscriptSegment) := none
  language : Option String := none
  isAutoGenerated : Option Bool := none
  method : Option String := none
  methods : MethodsMap := {}
  audioExtractionAvailable : Option Bool := none
  message : Option String := none
  extractAudioEndpoint : Option String := none
deriving Repr

/-- Orchestrator input: the caller's `preferCaptions` flag and the
outcomes of the three awaited adapter calls (an `.error` models a rejected
promise reaching the stage's `catch`). -/
structure OrchInput where
  preferCaptions : Bool
  timedTextCall : Except String (Option CaptionFetchResult)
  ytApiCall : Except String (Option CaptionFetchResult)
  ytDlpCall : Except String YtDlpResult

/-- Terminal check of caption stage 1 or 2 (`server.js` 166–179 and
191–204): adapter resolved with success and the parsed transcript is
non-empty. -/
def stageResult (xp : String → Xml2jsOutcome)
    (c : Except String (Option CaptionFetchResult)) :
    Option (List TranscriptSegment × CaptionFetchResult) :=
  match c with
  | .ok (some r) =>
    if r.success then
      let t := parseCaptionData xp r.captions r.format
      if t.length > 0 then some (t, r) else none
    else none
  | _ => none

/-- Diagnostic written when a caption stage falls through: the catch
records the rejection message, otherwise the fixed not-found text. -/
def stageDiag (c : Except String (Option CaptionFetchResult)) (notFound : String) : Diag :=
  match c with
  | .error m => ⟨false, none, some m⟩
  | .ok _ => ⟨false, none, some notFound⟩

/-- The fall-through response (`server.js` 233–239). -/
def audioFallback (m : MethodsMap) : OrchResponse :=
  { success := false, methods := m, audioExtractionAvailable := some true,
    message := some "No Japanese captions found. You can extract audio for AI transcription.",
    extractAudioEndpoint := some "/extract-audio" }

/-- Stage 3, the yt-dlp subtitle attempt (`server.js` 212–231). -/
def stage3 (m : MethodsMap) (c : Except String YtDlpResult) : OrchResponse :=
  match c with
  | .ok (.good t lang auto) =>
    if t.length > 0 then
      { success := true, transcript := some t, language := some lang,
        isAutoGenerated := some auto, method := some "yt-dlp-subtitles",
        methods := { m with ytDlpSubtitles := some ⟨true, some t.length, none⟩ } }
    else
      audioFallback { m with ytDlpSubtitles := some ⟨false, none, some "No subtitles found"⟩ }
  | .ok (.fail e) =>
    audioFallback { m with ytDlpSubtitles := some ⟨false, none, some (jsOrStr (some e) "No subtitles found")⟩ }
  | .error msg =>
    audioFallback { m with ytDlpSubtitles := some ⟨false, none, some msg⟩ }

/-- The orchestrator body after URL validation (`server.js` 160–239):
caption stages 1–2 only under `preferCaptions`, then yt-dlp, then the
audio-extraction fallback. -/
def orchestrate (xp : String → Xml2jsOutcome) (inp : OrchInput) : OrchResponse :=
  if inp.preferCaptions then
    match stageResult xp inp.timedTextCall with
    | some tr =>
      { success := true, transcript := some tr.1, language := some tr.2.language,
        isAutoGenerated := some tr.2.isAutoGenerated, method := some "timedtext",
        methods := { timedtext := some ⟨true, some tr.1.length, none⟩ } }
    | none =>
      let m1 : MethodsMap :=
        { timedtext := some (stageDiag inp.timedTextCall "No captions found via timedtext") }
      match stageResult xp inp.ytApiCall with
      | some tr =>
        { success := true, transcript := some tr.1, language := some tr.2.language,
          isAutoGenerated := some tr.2.isAutoGenerated, method := some "youtube-api",
          methods := { m1 with youtubeApi := some ⟨true, some tr.1.length, none⟩ } }
      | none =>
        stage3 { m1 with youtubeApi := some (stageDiag inp.ytApiCall "No captions found") }
          inp.ytDlpCall
  else stage3 {} inp.ytDlpCall

/-- Two-segment transcript produced by `xpTwoSegs` below. -/
def twoSegs : List TranscriptSegment :=
  [⟨"1", "hello", some 0, some 2, ["hello"]⟩,
   ⟨"2", "world", some 2, some 4, ["world"]⟩]

/-- Concrete `xml2js` oracle yielding two caption-track text elements. -/
def xpTwoSegs : String → Xml2jsOutcome := fun _ =>
  .many [.elt (some ⟨some "0", some "2"⟩) (some "hello"),
         .elt (some ⟨some "2", some "2"⟩) (some "world")]

/-- Orchestrator input where the timed-text adapter finds nothing and the
page-metadata adapter returns a payload parsing to two segments. -/
def inpApiWins : OrchInput :=
  ⟨true, .ok none, .ok (some ⟨true, "payload", "srv3", "ja", false⟩), .ok (.fail "nope")⟩

/-- Orchestrator input where all three adapter calls reject. -/
def inpAllErr : OrchInput :=
  ⟨true, .error "boom1", .error "boom2", .error "boom3"⟩

/-! ## Lemmas -/

theorem qAdd_eq (x y : ℚ) : qAdd x y = x + y := (Rat.add_def' x y).symm

theorem natQ_nonneg (n : Nat) : 0 ≤ natQ n :=
  Rat.mkRat_nonneg (Int.ofNat_nonneg n) 1

theorem qDivNat_nonneg {x : ℚ} (h : 0 ≤ x) (n : Nat) : 0 ≤ qDivNat x n :=
  Rat.mkRat_nonneg (Rat.num_nonneg.mpr h) _

theorem qAdd_nonneg {x y : ℚ} (hx : 0 ≤ x) (hy : 0 ≤ y) : 0 ≤ qAdd x y := by
  rw [qAdd_eq]; exact add_nonneg hx hy

theorem jsGe_of_le {x y : ℚ} (h : y ≤ x) : jsGe (some x) (some y) = true := by
  simpa [jsGe] using h

theorem parseUnsigned_nonneg (l : List Char) (q : ℚ) (h : parseUnsigned l = some q) :
    0 ≤ q := by
  unfold parseUnsigned at h
  dsimp only at h
  split at h
  · split at h
    · exact absurd h (by simp)
    · simp only [Option.some.injEq] at h
      subst h
      exact qAdd_nonneg (natQ_nonneg _) (qDivNat_nonneg (natQ_nonneg _) _)
  · split at h
    · exact absurd h (by simp)
    · simp only [Option.some.injEq] at h
      subst h
      exact natQ_nonneg _

theorem ws_not_digitDot (c : Char) (h : jsWs c = true) : digitDot c = false := by
  have hc : c ∈ jsWsChars := by simpa [jsWs] using h
  fin_cases hc <;> decide

theorem digitDot_not_ws (c : Char) (h : digitDot c = true) : jsWs c = false := by
  cases hw : jsWs c
  · rfl
  · exact absurd h (by simp [ws_not_digitDot c hw])

theorem parseFloatL_class_nonneg (l : List Char) (hcl : ∀ c ∈ l, digitDot c = true)
    (q : ℚ) (h : parseFloatL l = some q) : 0 ≤ q := by
  unfold parseFloatL at h
  have hdw : l.dropWhile jsWs = l := by
    cases l with
    | nil => rfl
    | cons c t =>
      rw [List.dropWhile_cons]
      simp [digitDot_not_ws c (hcl c (by simp))]
  rw [hdw] at h
  dsimp only at h
  split at h
  · exact absurd (hcl '-' (by simp)) (by decide)
  · exact absurd (hcl '+' (by simp)) (by decide)
  · exact parseUnsigned_nonneg _ _ h

theorem cls1_mem {p : Char → Bool} {r cap rest : List Char}
    (h : cls1 p r = some (cap, rest)) : ∀ c ∈ cap, p c = true := by
  unfold cls1 at h
  dsimp only at h
  split at h
  · exact absurd h (by simp)
  · simp only [Option.some.injEq, Prod.mk.injEq] at h
    intro c hc
    exact List.mem_takeWhile_imp (h.1 ▸ hc)

theorem matchTTAt_classes {l s d txt rest : List Char}
    (h : matchTTAt l = some (s, d, txt, rest)) :
    (∀ c ∈ s, digitDot c = true) ∧ (∀ c ∈ d, digitDot c = true) := by
  unfold matchTTAt at h
  simp only [Option.bind_eq_some, Option.map_eq_some'] at h
  obtain ⟨r1, -, r2, -, r3, -, ⟨cs, rs⟩, hs, r5, -, r6, -, r7, -, ⟨cd, rd⟩, hd,
    r9, -, r10, -, ⟨ct, rt⟩, -, r12, -, heq⟩ := h
  obtain ⟨hs', hd', -, -⟩ : cs = s ∧ cd = d ∧ ct = txt ∧ r12 = rest := by
    simpa using heq
  exact ⟨hs' ▸ cls1_mem hs, hd' ▸ cls1_mem hd⟩

theorem scanTT_classes : ∀ (fuel : Nat) (l s d txt : List Char),
    (s, d, txt) ∈ scanTT fuel l →
    (∀ c ∈ s, digitDot c = true) ∧ (∀ c ∈ d, digitDot c = true) := by
  intro fuel
  induction fuel with
  | zero => intro l s d txt h; exact absurd h (by simp [scanTT])
  | succ n ih =>
    intro l s d txt h
    cases l with
    | nil => exact absurd h (by simp [scanTT])
    | cons c t =>
      rw [scanTT] at h
      split at h
      · next s' d' txt' rest hm =>
        rcases List.mem_cons.mp h with h1 | h1
        · obtain ⟨e1, e2, e3⟩ : s' = s ∧ d' = d ∧ txt' = txt := by
            simpa using h1.symm
          subst e1; subst e2
          exact matchTTAt_classes hm
        · exact ih rest s d txt h1
      · exact ih t s d txt h

theorem buildTT_contig (ms : List (List Char × List Char × List Char)) :
    ∀ n, contiguousFrom n (buildTT n ms) := by
  induction ms with
  | nil => intro n; rfl
  | cons m rest ih =>
    intro n
    obtain ⟨s, d, raw⟩ := m
    rw [buildTT]
    split
    · exact ih n
    · have h2 := ih (n + 1)
      simp only [contiguousFrom, List.map_cons, List.length_cons, List.range'_succ] at h2 ⊢
      simp [h2]

theorem jsAdd_eq_some {a b : JSNum} {z : ℚ} (h : jsAdd a b = some z) :
    ∃ x y, a = some x ∧ b = some y ∧ z = qAdd x y := by
  cases a with
  | none => exact absurd h (by simp [jsAdd])
  | some x =>
    cases b with
    | none => exact absurd h (by simp [jsAdd])
    | some y =>
      refine ⟨x, y, rfl, rfl, ?_⟩
      simpa [jsAdd] using h.symm

theorem buildTT_endTime_ge (ms : List (List Char × List Char × List Char))
    (hms : ∀ m ∈ ms, ∀ c ∈ m.2.1, digitDot c = true) :
    ∀ idx seg, seg ∈ buildTT idx ms → seg.endTime ≠ none →
    jsGe seg.endTime seg.startTime = true := by
  induction ms with
  | nil => intro idx seg h; exact absurd h (by simp [buildTT])
  | cons m rest ih =>
    intro idx seg h hne
    obtain ⟨s, d, raw⟩ := m
    rw [buildTT] at h
    split at h
    · exact ih (fun m hm => hms m (List.mem_cons_of_mem _ hm)) idx seg h hne
    · rcases List.mem_cons.mp h with h1 | h1
      · subst h1
        simp only at hne ⊢
        obtain ⟨qa, qd, ha, hd, hz⟩ := jsAdd_eq_some (Option.ne_none_iff_exists'.mp hne).choose_spec
        have hd0 : 0 ≤ qd :=
          parseFloatL_class_nonneg d (hms (s, d, raw) (by simp)) qd hd
        rw [(Option.ne_none_iff_exists'.mp hne).choose_spec, hz, ha]
        exact jsGe_of_le (by rw [qAdd_eq]; exact le_add_of_nonneg_right hd0)
      · exact ih (fun m hm => hms m (List.mem_cons_of_mem _ hm)) (idx + 1) seg h1 hne

theorem evalSrv3Item_id {idx : Nat} {item : XmlItem} {seg : TranscriptSegment}
    (h : evalSrv3Item idx item = .ok seg) : seg.id = toString (idx + 1) := by
  unfold evalSrv3Item at h
  split at h
  · exact absurd h (by simp)
  · exact absurd h (by simp)
  · split at h
    · split at h
      · simp only [Except.ok.injEq] at h
        rw [← h]
      · exact absurd h (by simp)
    · exact absurd h (by simp)

theorem srv3Run_contig (items : List XmlItem) :
    ∀ idx, contiguousFrom (idx + 1) (srv3Run idx items).1 := by
  induction items with
  | nil => intro idx; rfl
  | cons item rest ih =>
    intro idx
    rw [srv3Run]
    split
    · next seg hok =>
      have h2 := ih (idx + 1)
      simp only [contiguousFrom, List.map_cons, List.length_cons, List.range'_succ] at h2 ⊢
      simp [h2, evalSrv3Item_id hok]
    · rfl

theorem vttLoop_contig (lines : List (List Char)) :
    ∀ cur idx, contiguousFrom idx (vttLoop cur idx lines) := by
  induction lines with
  | nil => intro cur idx; rfl
  | cons ln rest ih =>
    intro cur idx
    rw [vttLoop.eq_def]
    dsimp only
    split
    · exact ih _ idx
    · split
      · split
        · next st _ =>
          have h2 := ih none (idx + 1)
          simp only [contiguousFrom, List.map_cons, List.length_cons, List.range'_succ] at h2 ⊢
          simp [h2]
        · exact ih _ idx
      · exact ih none idx

theorem json3Loop_contig (events : List Json3Event) :
    ∀ idx, contiguousFrom idx (json3Loop idx events) := by
  induction events with
  | nil => intro idx; rfl
  | cons e rest ih =>
    intro idx
    rw [json3Loop]
    split
    · exact ih idx
    · dsimp only
      split
      · have h2 := ih (idx + 1)
        simp only [contiguousFrom, List.map_cons, List.length_cons, List.range'_succ] at h2 ⊢
        simp [h2]
      · exact ih idx

theorem parseCaptionData_eq (xp : String → Xml2jsOutcome) (captionData format : String) :
    parseCaptionData xp captionData format =
      if format = "timedtext" then parseTimedText captionData
      else (srv3Body (xp captionData)).1 := by
  by_cases hf : format = "timedtext"
  · simp [parseCaptionData, parseCaptionDataTry, hf]
  · rcases h : srv3Body (xp captionData) with ⟨t, e⟩
    cases e <;> simp [parseCaptionData, parseCaptionDataTry, hf, h]

theorem srv3Body_contig (o : Xml2jsOutcome) : contiguousFrom 1 (srv3Body o).1 := by
  cases o with
  | errRes m => rfl
  | noText => rfl
  | single item => exact srv3Run_contig [item] 0
  | many items => exact srv3Run_contig items 0

theorem chopLit_self_append (p l : List Char) : chopLit p (p ++ l) = some l := by
  induction p with
  | nil => rfl
  | cons c t ih => simp [chopLit, ih]

theorem chopLit_some_eq {p l r : List Char} (h : chopLit p l = some r) : l = p ++ r := by
  induction p generalizing l with
  | nil => simpa [chopLit] using h
  | cons c t ih =>
    cases l with
    | nil => exact absurd h (by simp [chopLit])
    | cons x xs =>
      rw [chopLit] at h
      split at h
      · next hx => rw [hx, List.cons_append, ← ih h]
      · exact absurd h (by simp)

theorem stringMk_data (s : String) : String.mk s.data = s := rfl

theorem vidCapAt_full {l : List Char} (h1 : l ≠ [])
    (h2 : ∀ c ∈ l, vidStop c = false) : vidCapAt l = some l := by
  unfold vidCapAt
  have ht : l.takeWhile (fun c => !vidStop c) = l :=
    List.takeWhile_eq_self_iff.mpr (fun c hc => by simp [h2 c hc])
  dsimp only
  rw [ht]
  simp [h1]

theorem scanVid1_head {c : Char} {t : List Char} {cap : List Char}
    (h : tryVid1At (c :: t) = some cap) : scanVid1 (c :: t) = some cap := by
  simp [scanVid1, h]

theorem scanVid2_head {c : Char} {t : List Char} {cap : List Char}
    (h : tryVid2At (c :: t) = some cap) : scanVid2 (c :: t) = some cap := by
  simp [scanVid2, h]

theorem isSome_orElse_left {α : Type} {a b : Option α} (h : a.isSome = true) :
    (a <|> b).isSome = true := by
  cases a with
  | none => exact absurd h (by simp)
  | some x => simp

theorem isSome_orElse_right {α : Type} {a b : Option α} (h : b.isSome = true) :
    (a <|> b).isSome = true := by
  cases a with
  | none => simpa
  | some x => simp

theorem scanVid1_append_isSome : ∀ (a m : List Char),
    (tryVid1At m).isSome = true → (scanVid1 (a ++ m)).isSome = true := by
  intro a
  induction a with
  | nil =>
    intro m h
    cases m with
    | nil => exact absurd h (by decide)
    | cons c t =>
      simp only [List.nil_append]
      rw [scanVid1]
      exact isSome_orElse_left h
  | cons x xs ih =>
    intro m h
    rw [List.cons_append, scanVid1]
    exact isSome_orElse_right (ih m h)

theorem scanVid2_append_isSome : ∀ (a m : List Char),
    (tryVid2At m).isSome = true → (scanVid2 (a ++ m)).isSome = true := by
  intro a
  induction a with
  | nil =>
    intro m h
    cases m with
    | nil => exact absurd h (by decide)
    | cons c t =>
      simp only [List.nil_append]
      rw [scanVid2]
      exact isSome_orElse_left h
  | cons x xs ih =>
    intro m h
    rw [List.cons_append, scanVid2]
    exact isSome_orElse_right (ih m h)

theorem ws_not_wordChar (c : Char) (h : jsWs c = true) : isWordChar c = false := by
  have hc : c ∈ jsWsChars := by simpa [jsWs] using h
  fin_cases hc <;> decide

theorem wordChar_not_stop (c : Char) (h : isWordChar c = true) : vidStop c = false := by
  cases hs : vidStop c
  · rfl
  · have hs' : c = '&' ∨ jsWs c = true := by simpa [vidStop] using hs
    rcases hs' with h1 | h2
    · rw [h1] at h
      exact absurd h (by decide)
    · exact absurd h (by simp [ws_not_wordChar c h2])

theorem stage3_timedtext (m : MethodsMap) (c : Except String YtDlpResult) :
    (stage3 m c).methods.timedtext = m.timedtext := by
  unfold stage3 audioFallback
  cases c with
  | error e => rfl
  | ok r =>
    cases r with
    | fail e => rfl
    | good t lang auto => dsimp only; split <;> rfl

theorem stage3_youtubeApi (m : MethodsMap) (c : Except String YtDlpResult) :
    (stage3 m c).methods.youtubeApi = m.youtubeApi := by
  unfold stage3 audioFallback
  cases c with
  | error e => rfl
  | ok r =>
    cases r with
    | fail e => rfl
    | good t lang auto => dsimp only; split <;> rfl

theorem stage3_ytDlp_isSome (m : MethodsMap) (c : Except String YtDlpResult) :
    ((stage3 m c).methods.ytDlpSubtitles).isSome = true := by
  unfold stage3 audioFallback
  cases c with
  | error e => rfl
  | ok r =>
    cases r with
    | fail e => rfl
    | good t lang auto => dsimp only; split <;> rfl

theorem stage3_error_diag (m : MethodsMap) (msg : String) :
    (stage3 m (.error msg)).methods.ytDlpSubtitles = some ⟨false, none, some msg⟩ := rfl

theorem stageResult_error (xp : String → Xml2jsOutcome) (m : String) :
    stageResult xp (.error m) = none := rfl

theorem json3Loop_skip (e : Json3Event) (h : eventJoined e = "" ∨ eventJoined e = "\n")
    (idx : Nat) (rest : List Json3Event) :
    json3Loop idx (e :: rest) = json3Loop idx rest := by
  have ht : jsTrim (eventJoined e) = "" := by
    rcases h with h | h <;> rw [h] <;> rfl
  rw [json3Loop]
  cases hs : e.segs with
  | none => rfl
  | some segs =>
    dsimp only
    rw [ht]
    simp

theorem json3Loop_skip_mid (e : Json3Event) (h : eventJoined e = "" ∨ eventJoined e = "\n")
    (evs2 : List Json3Event) : ∀ (evs1 : List Json3Event) (idx : Nat),
    json3Loop idx (evs1 ++ e :: evs2) = json3Loop idx (evs1 ++ evs2) := by
  intro evs1
  induction evs1 with
  | nil => intro idx; simpa using json3Loop_skip e h idx evs2
  | cons a t ih =>
    intro idx
    rw [List.cons_append, List.cons_append, json3Loop, json3Loop]
    cases hs : a.segs with
    | none => exact ih idx
    | some segs =>
      dsimp only
      split_ifs with hc
      · rw [ih (idx + 1)]
      · exact ih idx

/-! ## Claim theorems -/

/-- C1, counterexample: the claim "every segment satisfies
`endTime >= startTime`" is false for the WebVTT parser, which copies cue
times as-is: the reversed cue `00:00:05.000 --> 00:00:01.000` produces a
segment with `startTime = 5` and `endTime = 1`, and the JS comparison
`endTime >= startTime` is false there. -/
theorem c1_counterexample :
    parseVTTToTranscript "00:00:05.000 --> 00:00:01.000\nhi" =
      [{ id := "1", text := "hi", startTime := some 5, endTime := some 1,
         words := ["hi"] }] ∧
    jsGe (some (1 : ℚ)) (some (5 : ℚ)) = false := by decide

/-- C1, amended: for every sequence produced by any of the four caption
parsers the `id` values are the decimal numerals counting contiguously
from "1" in emission order; and in the timed-text regex parser every
segment whose `endTime` is a number (not NaN) satisfies
`endTime >= startTime` (its `dur` capture matches `[\d.]+` and is
therefore non-negative).  The caption-track XML, WebVTT and JSON
event-stream parsers copy source times unchecked and can emit
`endTime < startTime`. -/
theorem c1_amended :
    (∀ (xp : String → Xml2jsOutcome) (data format : String),
        contiguousFrom 1 (parseCaptionData xp data format)) ∧
    (∀ s : String, contiguousFrom 1 (parseVTTToTranscript s)) ∧
    (∀ events : List Json3Event, contiguousFrom 1 (parseJson3Events events)) ∧
    (∀ (s : String) (seg : TranscriptSegment), seg ∈ parseTimedText s →
        seg.endTime ≠ none → jsGe seg.endTime seg.startTime = true) := by
  refine ⟨?_, ?_, ?_, ?_⟩
  · intro xp data format
    rw [parseCaptionData_eq]
    split
    · exact buildTT_contig _ 1
    · exact srv3Body_contig _
  · intro s
    exact vttLoop_contig _ none 1
  · intro events
    exact json3Loop_contig _ 1
  · intro s seg hmem hne
    refine buildTT_endTime_ge _ ?_ 1 seg hmem hne
    intro m hm
    exact (scanTT_classes _ _ m.1 m.2.1 m.2.2 hm).2

/-- C1, witness for the amended theorem: a concrete timed-text fragment
whose parsed segment has a numeric `endTime`, on which the theorem yields
`endTime >= startTime`. -/
theorem c1_amended_witness :
    ((⟨"1", "hi", some 1, some 3, ["hi"]⟩ : TranscriptSegment) ∈
        parseTimedText "<text start=\"1\" dur=\"2\">hi</text>") ∧
    jsGe (some (3 : ℚ)) (some (1 : ℚ)) = true := by
  refine ⟨by decide, ?_⟩
  exact c1_amended.2.2.2 "<text start=\"1\" dur=\"2\">hi</text>"
    ⟨"1", "hi", some 1, some 3, ["hi"]⟩ (by decide) (by decide)

/-- C5 (confirmed): `parseCaptionData` is total — every exceptional path
of its `try` body is caught, and the function returns the transcript list
built so far.  When the timed-text regex finds no matching elements the
result is empty; when the XML library reports a parse error the result is
empty; and whenever the try body raises, the already-pushed segments are
returned rather than the exception propagating. -/
theorem c5_parser_totality (xp : String → Xml2jsOutcome) (data format : String) :
    (scanTT (data.data.length + 1) data.data = [] →
        parseCaptionData xp data "timedtext" = []) ∧
    (∀ msg, xp data = .errRes msg → format ≠ "timedtext" →
        parseCaptionData xp data format = []) ∧
    (∀ t msg, parseCaptionDataTry xp data format = .error (t, msg) →
        parseCaptionData xp data format = t) := by
  refine ⟨?_, ?_, ?_⟩
  · intro h
    rw [parseCaptionData_eq]
    simp only [if_pos rfl]
    unfold parseTimedText parseTimedTextL
    rw [h]
    rfl
  · intro msg hxp hf
    rw [parseCaptionData_eq]
    rw [if_neg hf, hxp]
    rfl
  · intro t msg h
    unfold parseCaptionData
    rw [h]

/-- C5, witness: on plain text with no timed-text elements the parser
returns the empty transcript. -/
theorem c5_witness :
    scanTT ("hello".data.length + 1) "hello".data = [] ∧
    parseCaptionData xmlParseStub "hello" "timedtext" = [] :=
  ⟨by decide, (c5_parser_totality xmlParseStub "hello" "timedtext").1 (by decide)⟩

/-- C6 (confirmed): the timed-text fragment
`<text start="0" dur="5">Hello &amp; world</text>` parses to exactly one
segment with the `&amp;` entity decoded, `startTime = 0` and
`endTime = start + dur = 5` (stated for every `xml2js` oracle, which the
timed-text branch never consults). -/
theorem c6_timedtext_roundtrip (xp : String → Xml2jsOutcome) :
    parseCaptionData xp "<text start=\"0\" dur=\"5\">Hello &amp; world</text>" "timedtext" =
      [{ id := "1", text := "Hello & world", startTime := some 0, endTime := some 5,
         words := ["Hello", "&", "world"] }] := by
  rw [parseCaptionData_eq]
  rw [if_pos rfl]
  decide

/-- C7 (confirmed): the WebVTT cue `00:00:01.000 --> 00:00:03.000` with
text `こんにちは` parses to exactly one segment with `startTime = 1`,
`endTime = 3`, and `words = ["こんにちは"]` (no whitespace or Japanese
delimiter occurs in the text, so it is a single word). -/
theorem c7_vtt_roundtrip :
    parseVTTToTranscript "00:00:01.000 --> 00:00:03.000\nこんにちは" =
      [{ id := "1", text := "こんにちは", startTime := some 1, endTime := some 3,
         words := ["こんにちは"] }] := by decide

/-- C8 (confirmed): the event `{"segs":[{"utf8":"Hi"}],"tStartMs":1000}`
parses to one segment with `startTime = 1`, `endTime = 6` (the duration
defaults to 5000 ms when `dDurationMs` is absent) and `text = "Hi"`; and
any event whose concatenated text is empty or a bare newline contributes
no segment (removing it from the stream leaves the output unchanged). -/
theorem c8_json3 :
    (parseJson3Events [⟨some [⟨some "Hi"⟩], some 1000, none⟩] =
      [{ id := "1", text := "Hi", startTime := some 1, endTime := some 6,
         words := ["Hi"] }]) ∧
    (∀ (evs1 evs2 : List Json3Event) (e : Json3Event),
        (eventJoined e = "" ∨ eventJoined e = "\n") →
        parseJson3Events (evs1 ++ e :: evs2) = parseJson3Events (evs1 ++ evs2)) := by
  refine ⟨by decide, ?_⟩
  intro evs1 evs2 e h
  exact json3Loop_skip_mid e h evs2 evs1 1

/-- C8, witness: an event whose only text is a bare newline is skipped. -/
theorem c8_witness :
    (eventJoined ⟨some [⟨some "\n"⟩], some 0, none⟩ = "" ∨
      eventJoined ⟨some [⟨some "\n"⟩], some 0, none⟩ = "\n") ∧
    parseJson3Events [⟨some [⟨some "\n"⟩], some 0, none⟩] = parseJson3Events [] :=
  ⟨by decide, c8_json3.2 [] [] ⟨some [⟨some "\n"⟩], some 0, none⟩ (by decide)⟩

theorem scanVid1_of_head {l cap : List Char} (hne : l ≠ [])
    (h : tryVid1At l = some cap) : scanVid1 l = some cap := by
  cases l with
  | nil => exact absurd rfl hne
  | cons c t => simp [scanVid1, h]

/-- C9 (confirmed): for every non-empty identifier free of `&` and
whitespace, `extractVideoId` returns that identifier on the watch-query,
short-link and embed URL forms (pattern 1 matches at position 0 and the
`[^&\s]+` capture takes the whole identifier). -/
theorem c9_video_id_forms (v : String) (h1 : v.data ≠ [])
    (h2 : ∀ c ∈ v.data, vidStop c = false) :
    extractVideoId ("youtube.com/watch?v=" ++ v) = some v ∧
    extractVideoId ("youtu.be/" ++ v) = some v ∧
    extractVideoId ("youtube.com/embed/" ++ v) = some v := by
  have hcap : vidCapAt v.data = some v.data := vidCapAt_full h1 h2
  refine ⟨?_, ?_, ?_⟩
  · have htry : tryVid1At ("youtube.com/watch?v=".data ++ v.data) = some v.data := by
      unfold tryVid1At
      rw [chopLit_self_append]
      simp [hcap]
    have hscan : scanVid1 ("youtube.com/watch?v=".data ++ v.data) = some v.data :=
      scanVid1_of_head (fun hX => h1 (List.append_eq_nil.mp hX).2) htry
    show (match scanVid1 ("youtube.com/watch?v=".data ++ v.data) with
      | some cap => some (String.mk cap)
      | none => (scanVid2 ("youtube.com/watch?v=".data ++ v.data)).map String.mk) = some v
    rw [hscan]
  · have e1 : chopLit "youtube.com/watch?v=".data ("youtu.be/".data ++ v.data) = none := rfl
    have htry : tryVid1At ("youtu.be/".data ++ v.data) = some v.data := by
      unfold tryVid1At
      rw [e1, chopLit_self_append]
      simp [hcap]
    have hscan : scanVid1 ("youtu.be/".data ++ v.data) = some v.data :=
      scanVid1_of_head (fun hX => h1 (List.append_eq_nil.mp hX).2) htry
    show (match scanVid1 ("youtu.be/".data ++ v.data) with
      | some cap => some (String.mk cap)
      | none => (scanVid2 ("youtu.be/".data ++ v.data)).map String.mk) = some v
    rw [hscan]
  · have e1 : chopLit "youtube.com/watch?v=".data ("youtube.com/embed/".data ++ v.data) = none := rfl
    have e2 : chopLit "youtu.be/".data ("youtube.com/embed/".data ++ v.data) = none := rfl
    have htry : tryVid1At ("youtube.com/embed/".data ++ v.data) = some v.data := by
      unfold tryVid1At
      rw [e1, e2, chopLit_self_append]
      simp [hcap]
    have hscan : scanVid1 ("youtube.com/embed/".data ++ v.data) = some v.data :=
      scanVid1_of_head (fun hX => h1 (List.append_eq_nil.mp hX).2) htry
    show (match scanVid1 ("youtube.com/embed/".data ++ v.data) with
      | some cap => some (String.mk cap)
      | none => (scanVid2 ("youtube.com/embed/".data ++ v.data)).map String.mk) = some v
    rw [hscan]

/-- C9, witness: the three URL forms at a concrete identifier. -/
theorem c9_witness :
    extractVideoId ("youtube.com/watch?v=" ++ "dQw4w9WgXcQ") = some "dQw4w9WgXcQ" ∧
    extractVideoId ("youtu.be/" ++ "dQw4w9WgXcQ") = some "dQw4w9WgXcQ" ∧
    extractVideoId ("youtube.com/embed/" ++ "dQw4w9WgXcQ") = some "dQw4w9WgXcQ" :=
  c9_video_id_forms "dQw4w9WgXcQ" (by decide) (by decide)

theorem schemeCands_suffix {l r : List Char} (h : r ∈ schemeCands l) :
    ∃ a, l = a ++ r := by
  unfold schemeCands at h
  rcases List.mem_append.mp h with h12 | h3
  · rcases List.mem_append.mp h12 with h1 | h2
    · rcases hc : chopLit "https://".data l with _ | r'
      · rw [hc] at h1
        exact absurd h1 (by simp)
      · rw [hc] at h1
        obtain rfl : r = r' := by simpa using h1
        exact ⟨_, chopLit_some_eq hc⟩
    · rcases hc : chopLit "http://".data l with _ | r'
      · rw [hc] at h2
        exact absurd h2 (by simp)
      · rw [hc] at h2
        obtain rfl : r = r' := by simpa using h2
        exact ⟨_, chopLit_some_eq hc⟩
  · obtain rfl : r = l := by simpa using h3
    exact ⟨[], rfl⟩

theorem wwwCands_suffix {l r : List Char} (h : r ∈ wwwCands l) :
    ∃ a, l = a ++ r := by
  unfold wwwCands at h
  rcases List.mem_append.mp h with h1 | h2
  · rcases hc : chopLit "www.".data l with _ | r'
    · rw [hc] at h1
      exact absurd h1 (by simp)
    · rw [hc] at h1
      obtain rfl : r = r' := by simpa using h1
      exact ⟨_, chopLit_some_eq hc⟩
  · obtain rfl : r = l := by simpa using h2
    exact ⟨[], rfl⟩

theorem hostCands_cases {l r : List Char} (h : r ∈ hostCands l) :
    chopLit "youtube.com/watch?v=".data l = some r ∨
    chopLit "youtube.com/embed/".data l = some r ∨
    chopLit "youtube.com/v/".data l = some r ∨
    chopLit "youtu.be/".data l = some r := by
  unfold hostCands at h
  rcases List.mem_filterMap.mp h with ⟨o, ho, hid⟩
  obtain rfl : o = some r := by simpa using hid
  simpa [eq_comm] using ho

/-- C10 (confirmed): every URL accepted by `isValidYouTubeUrl` contains
one of the four host/path literals followed by a word character, so
`extractVideoId` finds a match (pattern 1 for the watch, embed and
short-link forms, pattern 2 for the `/v/` form) and never returns `none`;
hence the orchestrator's "Could not extract video ID" branch is
unreachable for validated URLs. -/
theorem c10_validator_implies_id (url : String) (h : isValidYouTubeUrl url = true) :
    (extractVideoId url).isSome = true := by
  unfold isValidYouTubeUrl at h
  rw [List.any_eq_true] at h
  obtain ⟨r1, hr1, h⟩ := h
  rw [List.any_eq_true] at h
  obtain ⟨r2, hr2, h⟩ := h
  rw [List.any_eq_true] at h
  obtain ⟨r3, hr3, htail⟩ := h
  obtain ⟨a1, ha1⟩ := schemeCands_suffix hr1
  obtain ⟨a2, ha2⟩ := wwwCands_suffix hr2
  cases r3 with
  | nil => exact absurd htail (by decide)
  | cons c rest =>
    have hcw : isWordChar c = true := by simpa [tailOk] using htail
    have hstop : vidStop c = false := wordChar_not_stop c hcw
    have hcap : (vidCapAt (c :: rest)).isSome = true := by
      unfold vidCapAt
      dsimp only
      rw [List.takeWhile_cons]
      simp [hstop]
    have hid : ∀ lit : List Char, chopLit lit r2 = some (c :: rest) →
        url.data = (a1 ++ a2) ++ (lit ++ (c :: rest)) := by
      intro lit hl
      rw [ha1, ha2, chopLit_some_eq hl, List.append_assoc]
    rcases hostCands_cases hr3 with hh | hh | hh | hh
    · have htry : (tryVid1At ("youtube.com/watch?v=".data ++ (c :: rest))).isSome = true := by
        unfold tryVid1At
        apply isSome_orElse_left
        rw [chopLit_self_append]
        simpa using hcap
      have hscan := scanVid1_append_isSome (a1 ++ a2) _ htry
      rw [← hid _ hh] at hscan
      unfold extractVideoId
      rcases hs : scanVid1 url.data with _ | cap
      · rw [hs] at hscan
        exact absurd hscan (by simp)
      · simp
    · have htry : (tryVid1At ("youtube.com/embed/".data ++ (c :: rest))).isSome = true := by
        unfold tryVid1At
        apply isSome_orElse_right
        apply isSome_orElse_right
        rw [chopLit_self_append]
        simpa using hcap
      have hscan := scanVid1_append_isSome (a1 ++ a2) _ htry
      rw [← hid _ hh] at hscan
      unfold extractVideoId
      rcases hs : scanVid1 url.data with _ | cap
      · rw [hs] at hscan
        exact absurd hscan (by simp)
      · simp
    · have htry : (tryVid2At ("youtube.com/v/".data ++ (c :: rest))).isSome = true := by
        unfold tryVid2At
        rw [chopLit_self_append]
        simpa using hcap
      have hscan := scanVid2_append_isSome (a1 ++ a2) _ htry
      rw [← hid _ hh] at hscan
      unfold extractVideoId
      rcases hs : scanVid1 url.data with _ | cap
      · obtain ⟨cap2, hc2⟩ := Option.isSome_iff_exists.mp hscan
        rw [hc2]
        simp
      · simp
    · have htry : (tryVid1At ("youtu.be/".data ++ (c :: rest))).isSome = true := by
        unfold tryVid1At
        apply isSome_orElse_right
        apply isSome_orElse_left
        rw [chopLit_self_append]
        simpa using hcap
      have hscan := scanVid1_append_isSome (a1 ++ a2) _ htry
      rw [← hid _ hh] at hscan
      unfold extractVideoId
      rcases hs : scanVid1 url.data with _ | cap
      · rw [hs] at hscan
        exact absurd hscan (by simp)
      · simp

/-- C10, witness: a fully-dressed valid URL passes validation and yields
an identifier. -/
theorem c10_witness :
    isValidYouTubeUrl "https://www.youtube.com/watch?v=dQw4w9WgXcQ" = true ∧
    (extractVideoId "https://www.youtube.com/watch?v=dQw4w9WgXcQ").isSome = true :=
  ⟨by decide, c10_validator_implies_id _ (by decide)⟩

/-- C2 (confirmed): under `preferCaptions` the orchestrator returns the
first stage producing a non-empty transcript, with `method` equal to
`"timedtext"`, `"youtube-api"` or `"yt-dlp-subtitles"` respectively and
`transcript` equal to that stage's parse; and when no stage produces a
non-empty transcript the result has `success = false` and
`audioExtractionAvailable = true`. -/
theorem c2_orchestrator_order (xp : String → Xml2jsOutcome) (inp : OrchInput) :
    (inp.preferCaptions = true →
      ∀ t r, stageResult xp inp.timedTextCall = some (t, r) →
        (orchestrate xp inp).success = true ∧
        (orchestrate xp inp).method = some "timedtext" ∧
        (orchestrate xp inp).transcript = some t) ∧
    (inp.preferCaptions = true →
      stageResult xp inp.timedTextCall = none →
      ∀ t r, stageResult xp inp.ytApiCall = some (t, r) →
        (orchestrate xp inp).success = true ∧
        (orchestrate xp inp).method = some "youtube-api" ∧
        (orchestrate xp inp).transcript = some t) ∧
    (inp.preferCaptions = true →
      stageResult xp inp.timedTextCall = none →
      stageResult xp inp.ytApiCall = none →
      ∀ t lang auto, inp.ytDlpCall = .ok (.good t lang auto) → t.length > 0 →
        (orchestrate xp inp).success = true ∧
        (orchestrate xp inp).method = some "yt-dlp-subtitles" ∧
        (orchestrate xp inp).transcript = some t) ∧
    (inp.preferCaptions = true →
      stageResult xp inp.timedTextCall = none →
      stageResult xp inp.ytApiCall = none →
      (∀ t lang auto, inp.ytDlpCall = .ok (.good t lang auto) → t = []) →
      (orchestrate xp inp).success = false ∧
      (orchestrate xp inp).audioExtractionAvailable = some true) := by
  refine ⟨?_, ?_, ?_, ?_⟩
  · intro hp t r h
    simp [orchestrate, hp, h]
  · intro hp h1 t r h2
    simp [orchestrate, hp, h1, h2]
  · intro hp h1 h2 t lang auto hdl hlen
    simp [orchestrate, hp, h1, h2, stage3, hdl, hlen]
  · intro hp h1 h2 hemp
    rcases hc : inp.ytDlpCall with msg | r
    · simp [orchestrate, hp, h1, h2, stage3, hc, audioFallback]
    · cases r with
      | good t lang auto =>
        have ht : t = [] := hemp t lang auto hc
        subst ht
        simp [orchestrate, hp, h1, h2, stage3, hc, audioFallback]
      | fail e =>
        simp [orchestrate, hp, h1, h2, stage3, hc, audioFallback]

/-- C2, witness: timed-text finds nothing and the page-metadata payload
parses to two segments, so the result carries `method = "youtube-api"` and
exactly those two segments. -/
theorem c2_witness :
    (orchestrate xpTwoSegs inpApiWins).success = true ∧
    (orchestrate xpTwoSegs inpApiWins).method = some "youtube-api" ∧
    (orchestrate xpTwoSegs inpApiWins).transcript = some twoSegs :=
  (c2_orchestrator_order xpTwoSegs inpApiWins).2.1 rfl (by decide) twoSegs
    ⟨true, "payload", "srv3", "ja", false⟩ (by decide)

/-- C3 (confirmed): the orchestrator always returns a structured response
in which exactly the attempted stages carry a diagnostic entry — the
timed-text entry iff `preferCaptions`, the page-metadata entry iff the
timed-text stage fell through, the yt-dlp entry iff both caption stages
fell through (or captions were not preferred) — and a rejected adapter
call is recorded as `{success: false, error: <message>}` in its stage's
entry rather than propagating. -/
theorem c3_diagnostics (xp : String → Xml2jsOutcome) (inp : OrchInput) :
    ((orchestrate xp inp).methods.timedtext.isSome = inp.preferCaptions) ∧
    ((orchestrate xp inp).methods.youtubeApi.isSome =
      (inp.preferCaptions && (stageResult xp inp.timedTextCall).isNone)) ∧
    ((orchestrate xp inp).methods.ytDlpSubtitles.isSome =
      (!inp.preferCaptions ||
        ((stageResult xp inp.timedTextCall).isNone &&
          (stageResult xp inp.ytApiCall).isNone))) ∧
    (∀ m, inp.preferCaptions = true → inp.timedTextCall = .error m →
      (orchestrate xp inp).methods.timedtext = some ⟨false, none, some m⟩) ∧
    (∀ m, inp.preferCaptions = true → stageResult xp inp.timedTextCall = none →
      inp.ytApiCall = .error m →
      (orchestrate xp inp).methods.youtubeApi = some ⟨false, none, some m⟩) ∧
    (∀ m, (inp.preferCaptions = false ∨
        (stageResult xp inp.timedTextCall = none ∧ stageResult xp inp.ytApiCall = none)) →
      inp.ytDlpCall = .error m →
      (orchestrate xp inp).methods.ytDlpSubtitles = some ⟨false, none, some m⟩) := by
  refine ⟨?_, ?_, ?_, ?_, ?_, ?_⟩
  · cases hp : inp.preferCaptions with
    | false => simp [orchestrate, hp, stage3_timedtext]
    | true =>
      rcases hr1 : stageResult xp inp.timedTextCall with _ | tr
      · rcases hr2 : stageResult xp inp.ytApiCall with _ | tr2
        · simp [orchestrate, hp, hr1, hr2, stage3_timedtext]
        · simp [orchestrate, hp, hr1, hr2]
      · simp [orchestrate, hp, hr1]
  · cases hp : inp.preferCaptions with
    | false => simp [orchestrate, hp, stage3_youtubeApi]
    | true =>
      rcases hr1 : stageResult xp inp.timedTextCall with _ | tr
      · rcases hr2 : stageResult xp inp.ytApiCall with _ | tr2
        · simp [orchestrate, hp, hr1, hr2, stage3_youtubeApi]
        · simp [orchestrate, hp, hr1, hr2]
      · simp [orchestrate, hp, hr1]
  · cases hp : inp.preferCaptions with
    | false => simp [orchestrate, hp, stage3_ytDlp_isSome]
    | true =>
      rcases hr1 : stageResult xp inp.timedTextCall with _ | tr
      · rcases hr2 : stageResult xp inp.ytApiCall with _ | tr2
        · simp [orchestrate, hp, hr1, hr2, stage3_ytDlp_isSome]
        · simp [orchestrate, hp, hr1, hr2]
      · simp [orchestrate, hp, hr1]
  · intro m hp hc
    have hr1 : stageResult xp inp.timedTextCall = none := by rw [hc]; rfl
    rcases hr2 : stageResult xp inp.ytApiCall with _ | tr2
    · simp [orchestrate, hp, hr1, hr2, stage3_timedtext, hc, stageDiag, stageResult_error]
    · simp [orchestrate, hp, hr1, hr2, hc, stageDiag, stageResult_error]
  · intro m hp hr1 hc
    have hr2 : stageResult xp inp.ytApiCall = none := by rw [hc]; rfl
    simp [orchestrate, hp, hr1, hr2, stage3_youtubeApi, hc, stageDiag, stageResult_error]
  · intro m hd hc
    rcases hd with hp | ⟨hr1, hr2⟩
    · simp [orchestrate, hp, hc, stage3_error_diag]
    · cases hp : inp.preferCaptions with
      | false => simp [orchestrate, hp, hc, stage3_error_diag]
      | true => simp [orchestrate, hp, hr1, hr2, hc, stage3_error_diag]

/-- C3, witness: with all three adapter calls rejecting, every stage's
diagnostic carries the rejection message. -/
theorem c3_witness :
    (orchestrate xmlParseStub inpAllErr).methods.timedtext =
      some ⟨false, none, some "boom1"⟩ ∧
    (orchestrate xmlParseStub inpAllErr).methods.youtubeApi =
      some ⟨false, none, some "boom2"⟩ ∧
    (orchestrate xmlParseStub inpAllErr).methods.ytDlpSubtitles =
      some ⟨false, none, some "boom3"⟩ :=
  ⟨(c3_diagnostics xmlParseStub inpAllErr).2.2.2.1 "boom1" rfl rfl,
   (c3_diagnostics xmlParseStub inpAllErr).2.2.2.2.1 "boom2" rfl rfl rfl,
   (c3_diagnostics xmlParseStub inpAllErr).2.2.2.2.2 "boom3" (Or.inr ⟨rfl, rfl⟩) rfl⟩

/-- C4, counterexample: the claim that each adapter's failure outcome
distinguishes "no captions found" from "network error" is false — the
timed-text adapter returns the same `null` both when the fetched body has
no `<text` element and when the fetch itself rejects. -/
theorem c4_counterexample :
    tryTimedText (.ok "<html>no captions</html>") (.ok "<html></html>") = none ∧
    tryTimedText (.error "socket hang up") (.ok "<text start=\"0\" dur=\"1\">x</text>") =
      none := by decide

/-- C4, amended: only the external-CLI adapter reports failure causes as
distinct structured outcomes (`No Japanese subtitles available`, `Failed
to download subtitles`, or the process error message); the timed-text and
page-metadata adapters collapse every failure mode — no captions, network
error, missing or unparseable payload alike — into the same `null`
outcome, so their callers cannot tell "tried and found nothing" apart from
"this method is broken". -/
theorem c4_amended :
    (∀ (dl : Except String Unit) (vtt : Option String),
        extractSubtitlesWithYtDlp (.ok ⟨false, false, false, false⟩) dl vtt =
          .fail "No Japanese subtitles available") ∧
    (extractSubtitlesWithYtDlp (.ok ⟨true, false, false, false⟩) (.ok ()) none =
        .fail "Failed to download subtitles") ∧
    (∀ (m : String) (dl : Except String Unit) (vtt : Option String),
        extractSubtitlesWithYtDlp (.error m) dl vtt = .fail m) ∧
    (∀ r1 r2 : Except String String,
        (∀ s, r1 = .ok s → containsSub "<text".data s.data = false) →
        (∀ s, r2 = .ok s → containsSub "<text".data s.data = false) →
        tryTimedText r1 r2 = none) ∧
    (∀ m1 m2 : String, tryYouTubeAPI (.fetchErr m1) (.fetchErr m2) = none) ∧
    (tryYouTubeAPI .noPlayerResponse .noPlayerResponse = none) := by
  refine ⟨fun dl vtt => rfl, rfl, fun m dl vtt => rfl, ?_, fun m1 m2 => rfl, rfl⟩
  intro r1 r2 hn1 hn2
  cases r1 with
  | error m => rfl
  | ok s =>
    have h1 := hn1 s rfl
    unfold tryTimedText
    dsimp only
    rw [if_neg (by simp [h1])]
    cases r2 with
    | error m => rfl
    | ok s2 =>
      have h2 := hn2 s2 rfl
      dsimp only
      rw [if_neg (by simp [h2])]

/-- C4, witness for the amended theorem: a body without `<text` and a
rejected second fetch yield the adapter's `null`. -/
theorem c4_amended_witness :
    (∀ s, (Except.ok "<p>none</p>" : Except String String) = .ok s →
        containsSub "<text".data s.data = false) ∧
    tryTimedText (.ok "<p>none</p>") (.error "net down") = none := by
  have hn1 : ∀ s, (Except.ok "<p>none</p>" : Except String String) = .ok s →
      containsSub "<text".data s.data = false := by
    intro s hs
    injection hs with hs
    subst hs
    decide
  refine ⟨hn1, ?_⟩
  refine c4_amended.2.2.2.1 (.ok "<p>none</p>") (.error "net down") hn1 ?_
  intro s hs
  exact absurd hs (by simp)

end YtAudio
